import Mathlib

/-!
Verification of the ffmpeg-driven detection and post-processing module of
nhk-record (source file containing `findSilences`, `findBlackframeGroups`,
`detectPotentialBoundaries`, `generateTimeSequence`, `generateFilterChain`,
`getFfmpegPostProcessArguments`, `getVideoDimensions`, `postProcessRecording`).

The TypeScript source is embedded shallowly:
- JavaScript numbers that hold exact fractional-second values parsed by
  `parseFloat` are modelled as rationals (`ℚ`); millisecond timestamps and
  frame numbers are integers / naturals.
- `Math.round x = ⌊x + 1/2⌋` (JavaScript rounds halves toward positive
  infinity); it appears below as `roundDiv`, `msOfSeconds` and
  `msOfSecondsSub`, written with integer division so they evaluate in the
  kernel, each with a proved floor characterisation.
- A diagnostic line of ffmpeg output is modelled by which filter-output
  pattern it matches, carrying the regex capture groups already converted by
  `parseInt` / `parseFloat` (constructor `other` stands for every line that
  matches none of the patterns).
- The `node-interval-tree` of candidate silence windows is modelled as the
  list of inserted `(low, high, data)` triples in insertion order;
  `search t t` returns the data of every stored interval containing `t`
  (closed-interval containment, as in the library's overlap test).  The
  silences inserted by `detectPotentialBoundaries` come from disjoint
  `silencedetect` reports, for which insertion order agrees with the tree's
  in-order traversal.
-/

/-- Round-half-up of the fraction `a / b` (for `b > 0`):
`roundDiv a b = ⌊a / b + 1/2⌋`, which is JavaScript `Math.round (a / b)`.
Written with integer division only so that it evaluates by `decide`;
`roundDiv_eq_floor` gives the floor characterisation. -/
def roundDiv (a b : ℤ) : ℤ := (2 * a + b) / (2 * b)

theorem roundDiv_eq_floor (a : ℤ) {b : ℤ} (hb : 0 < b) :
    roundDiv a b = ⌊(a : ℚ) / (b : ℚ) + 1 / 2⌋ := by
  have hbq : ((b : ℚ)) ≠ 0 := by
    exact_mod_cast hb.ne'
  have htn : (((2 * b).toNat : ℤ)) = 2 * b := Int.toNat_of_nonneg (by linarith)
  have htnq : (((2 * b).toNat : ℕ) : ℚ) = ((2 * b : ℤ) : ℚ) := by
    exact_mod_cast congrArg (fun z : ℤ => (z : ℚ)) htn
  have h : (a : ℚ) / (b : ℚ) + 1 / 2
      = ((2 * a + b : ℤ) : ℚ) / (((2 * b).toNat : ℕ) : ℚ) := by
    rw [htnq]
    push_cast
    field_simp
    ring
  rw [h, Rat.floor_intCast_div_natCast, roundDiv, htn]

/-- JavaScript `Math.round (t * 1000)` for an exact fractional-seconds value
`t`: conversion of seconds to whole milliseconds as done throughout the
source.  `msOfSeconds_eq_floor` relates it to the rational formula. -/
def msOfSeconds (t : ℚ) : ℤ := roundDiv (1000 * t.num) (t.den : ℤ)

theorem msOfSeconds_eq_floor (t : ℚ) : msOfSeconds t = ⌊t * 1000 + 1 / 2⌋ := by
  have hden : (0 : ℤ) < (t.den : ℤ) := by
    exact_mod_cast t.pos
  have hq : ((t.den : ℚ)) ≠ 0 := by
    exact_mod_cast t.den_nz
  have ht : t * ((t.den : ℚ)) = (t.num : ℚ) := by
    conv_lhs => lhs; rw [← Rat.num_div_den t]
    exact div_mul_cancel₀ _ hq
  rw [msOfSeconds, roundDiv_eq_floor _ hden]
  congr 2
  push_cast
  rw [div_eq_iff hq]
  linear_combination (-1000 : ℚ) * ht

/-- JavaScript `Math.round ((e - d) * 1000)` written on the numerators and
denominators of `e` and `d` (`(e - d) * 1000 = 1000 * (e.num * d.den -
d.num * e.den) / (e.den * d.den)`), so that it evaluates by `decide`. -/
def msOfSecondsSub (e d : ℚ) : ℤ :=
  roundDiv (1000 * (e.num * (d.den : ℤ) - d.num * (e.den : ℤ))) ((e.den : ℤ) * (d.den : ℤ))

theorem msOfSecondsSub_eq_floor (e d : ℚ) :
    msOfSecondsSub e d = ⌊(e - d) * 1000 + 1 / 2⌋ := by
  have hden : (0 : ℤ) < (e.den : ℤ) * (d.den : ℤ) := by
    have he : (0 : ℤ) < (e.den : ℤ) := by exact_mod_cast e.pos
    have hd : (0 : ℤ) < (d.den : ℤ) := by exact_mod_cast d.pos
    positivity
  have hqe : ((e.den : ℚ)) ≠ 0 := by exact_mod_cast e.den_nz
  have hqd : ((d.den : ℚ)) ≠ 0 := by exact_mod_cast d.den_nz
  have he : e * ((e.den : ℚ)) = (e.num : ℚ) := by
    conv_lhs => lhs; rw [← Rat.num_div_den e]
    exact div_mul_cancel₀ _ hqe
  have hd : d * ((d.den : ℚ)) = (d.num : ℚ) := by
    conv_lhs => lhs; rw [← Rat.num_div_den d]
    exact div_mul_cancel₀ _ hqd
  rw [msOfSecondsSub, roundDiv_eq_floor _ hden]
  congr 2
  push_cast
  rw [div_eq_iff (mul_ne_zero hqe hqd)]
  linear_combination (-1000 : ℚ) * (d.den : ℚ) * he + (1000 : ℚ) * (e.den : ℚ) * hd

/-- A silence interval in milliseconds, as produced by `findSilences`. -/
structure Silence where
  startTime : ℤ
  endTime : ℤ
  deriving DecidableEq, Repr

/-- Parsed captures of one `Parsed_blackframe` diagnostic line after the
numeric conversions in `findBlackframeGroups` (`filterNum` and `frame` via
`parseInt`, `time` via `parseFloat` then `Math.round(· * 1000)`). -/
structure BlackframeOutput where
  filterNum : ℕ
  frameNum : ℕ
  time : ℤ
  deriving DecidableEq, Repr

/-- A detected feature (a surviving frame run) reported by
`findBlackframeGroups`. -/
structure DetectedFeature where
  start : ℤ
  stop : ℤ
  firstFrame : ℕ
  lastFrame : ℕ
  deriving DecidableEq, Repr

/-- A frame-search strategy (`FrameSearchStrategy` in the source).  Optional
fields keep the source's `?? default` reads explicit. -/
structure FrameSearchStrategy where
  name : String
  filters : List ℕ
  maxSkip : Option ℕ := none
  minSilenceSeconds : Option ℚ := none
  minFrames : ℕ
  deriving DecidableEq, Repr

/-- One line of ffmpeg diagnostic output, classified by which filter-output
regular expression it matches.  `blackframe` carries `filterNum`, `frame`,
`pctBlack` and the raw `t:` capture in seconds; `silence` carries the raw
`silence_end` and `silence_duration` captures in seconds.  The capture
patterns are `[\d.]+` and `\d+`, so all captured values are non-negative. -/
inductive FfmpegLine where
  | blackframe (filterNum frameNum pctBlack : ℕ) (time : ℚ)
  | silence (endTime duration : ℚ)
  | other
  deriving DecidableEq, Repr

/-- Matching a line against `BLACKFRAME_FILTER_OUTPUT_PATTERN` followed by the
numeric conversions of `findBlackframeGroups` (lines 256-265 of the source):
`time` becomes `Math.round (parseFloat time * 1000)`. -/
def matchBlackframe : FfmpegLine → Option BlackframeOutput
  | .blackframe filterNum frameNum _ time =>
      some { filterNum := filterNum, frameNum := frameNum, time := msOfSeconds time }
  | _ => none

/-- The source's `findSilences`: map the lines matching
`SILENCEDETECT_FILTER_OUTPUT_PATTERN` to millisecond `Silence` records
(`startTime = Math.round ((endTime - duration) * 1000)`,
`endTime = Math.round (endTime * 1000)`), skipping the lines that do not
match. -/
def findSilences (ffmpegLines : List FfmpegLine) : List Silence :=
  ffmpegLines.filterMap fun
    | .silence endTime duration =>
        some { startTime := msOfSecondsSub endTime duration
               endTime := msOfSeconds endTime }
    | _ => none

/-- The candidate-window interval tree, modelled as the list of inserted
`(low, high, data)` triples in insertion order. -/
abbrev CandidateWindows := List (ℤ × ℤ × ℤ)

/-- `tree.insert low high data` of `node-interval-tree`. -/
def treeInsert (t : CandidateWindows) (low high data : ℤ) : CandidateWindows :=
  t ++ [(low, high, data)]

/-- `tree.search p p`: the data of every stored interval containing `p`
(`node-interval-tree` reports intervals overlapping the closed query
interval). -/
def treeSearch (t : CandidateWindows) (p : ℤ) : List ℤ :=
  (t.filter fun w => decide (w.1 ≤ p ∧ p ≤ w.2.1)).map (fun w => w.2.2)

/-- The source's `BOUNDARY_STRATEGIES` list, in declaration order. -/
def BOUNDARY_STRATEGIES : List FrameSearchStrategy :=
  [ { name := "black-logo", filters := [11], minSilenceSeconds := some (mkRat 3 2),
      minFrames := 5 },
    { name := "white-logo", filters := [13], minSilenceSeconds := some (mkRat 3 2),
      minFrames := 5 },
    { name := "white-borders-logo", filters := [15], minSilenceSeconds := some (mkRat 3 2),
      minFrames := 5 },
    { name := "black-logo-ai-subtitles", filters := [17], minSilenceSeconds := some (mkRat 3 2),
      minFrames := 5 },
    { name := "black-no-logo-ai-subtitles", filters := [19],
      minSilenceSeconds := some (mkRat 3 2), minFrames := 5 },
    { name := "no-logo", filters := [20], minSilenceSeconds := some (mkRat 1 10),
      minFrames := 3 },
    { name := "newsline", filters := [22], minSilenceSeconds := some 0, minFrames := 1 } ]

/-- The source's `NEWS_BANNER_STRATEGY` (no `minSilenceSeconds`). -/
def NEWS_BANNER_STRATEGY : FrameSearchStrategy :=
  { name := "news-banner-background", filters := [13], maxSkip := some 120, minFrames := 120 }

/-- The silence-window filter of `findBlackframeGroups` (line 267-270 of the
source):

`.filter(({ time }) => head(candidateWindows.search(time, time)) ?? 0 >= (strategy.minSilenceSeconds ?? 0))`

In JavaScript `??` binds more loosely than `>=`, so this expression parses as
`head(search(time, time)) ?? (0 >= (strategy.minSilenceSeconds ?? 0))` and the
filter keeps an event iff either some silence window contains its time and the
first such window's stored duration is non-zero (a number is truthy iff it is
non-zero), or no window contains its time and `0 >= minSilenceSeconds`.  The
strategy's threshold is never compared against the overlap duration. -/
def keepBySilence (strategy : FrameSearchStrategy) (tree : CandidateWindows)
    (time : ℤ) : Bool :=
  match (treeSearch tree time).head? with
  | some d => d != 0
  | none => decide (strategy.minSilenceSeconds.getD 0 ≤ 0)

/-- Stable insertion used by `sortByFilterNum`: insert `x` after every element
whose `filterNum` is at most `x.filterNum`. -/
def insertByFilterNum (x : BlackframeOutput) : List BlackframeOutput → List BlackframeOutput
  | [] => [x]
  | y :: ys => if y.filterNum ≤ x.filterNum then y :: insertByFilterNum x ys
               else x :: y :: ys

/-- The source's `.sort(compareFunc(['filterNum', 'frame']))` (line 271).  The
mapped objects carry the properties `filterNum`, `frameNum` and `time`; the
comparator's second key `'frame'` does not exist on them, so `dot-prop`
returns `undefined` for both sides and `compare-func` treats the second key as
always equal.  The comparator therefore orders by `filterNum` alone, and
`Array.prototype.sort` is stable, so ties keep their input order.  Modelled as
a stable insertion sort on the `filterNum` key. -/
def sortByFilterNum (l : List BlackframeOutput) : List BlackframeOutput :=
  l.foldl (fun acc x => insertByFilterNum x acc) []

/-- The event sequence entering the run-grouping `reduce` of
`findBlackframeGroups`: match each line, keep the events whose `filterNum` is
in the strategy's filter list (`includes`), apply the silence-window filter,
then sort. -/
def selectedFrames (ffmpegLines : List FfmpegLine) (strategy : FrameSearchStrategy)
    (tree : CandidateWindows) : List BlackframeOutput :=
  sortByFilterNum
    (((ffmpegLines.filterMap matchBlackframe).filter
        fun b => strategy.filters.contains b.filterNum).filter
      fun b => keepBySilence strategy tree b.time)

/-- One step of the grouping `reduce` (lines 272-289 of the source): the new
event extends the current (last) run iff its frame-number gap from the run's
last event is at most `maxSkip` and it has the same `filterNum`; otherwise it
starts a new run.  The inner `none` branch mirrors the source's handling of an
empty last group (the aliased empty array is pushed again and then filled); it
is unreachable because produced groups are never empty. -/
def groupStep (maxSkip : ℕ) (gs : List (List BlackframeOutput))
    (f : BlackframeOutput) : List (List BlackframeOutput) :=
  match gs.getLast? with
  | none => [[f]]
  | some g =>
    match g.getLast? with
    | none => gs.dropLast ++ [[f], [f]]
    | some lastFrame =>
        if (f.frameNum : ℤ) - (lastFrame.frameNum : ℤ) ≤ (maxSkip : ℤ)
            ∧ f.filterNum = lastFrame.filterNum then
          gs.dropLast ++ [g ++ [f]]
        else
          gs ++ [[f]]

/-- The grouping `reduce` of `findBlackframeGroups`, with the source's
`strategy.maxSkip ?? 1` default. -/
def groupFrames (strategy : FrameSearchStrategy)
    (fs : List BlackframeOutput) : List (List BlackframeOutput) :=
  fs.foldl (groupStep (strategy.maxSkip.getD 1)) []

/-- Mapping a surviving run to a `DetectedFeature` (lines 291-299): start/end
times and first/last frame numbers come from the run's `head` and `last`
elements.  Every surviving run is non-empty, so the defaults of `headD` and
`getLastD` are never used. -/
def mkDetectedFeature (g : List BlackframeOutput) : DetectedFeature :=
  { start := (g.headD ⟨0, 0, 0⟩).time
    stop := (g.getLastD ⟨0, 0, 0⟩).time
    firstFrame := (g.headD ⟨0, 0, 0⟩).frameNum
    lastFrame := (g.getLastD ⟨0, 0, 0⟩).frameNum }

/-- The source's `findBlackframeGroups` (default tree argument: the empty
interval tree, as in `detectNewsBanners`). -/
def findBlackframeGroups (ffmpegLines : List FfmpegLine)
    (strategy : FrameSearchStrategy)
    (tree : CandidateWindows := []) : List DetectedFeature :=
  ((groupFrames strategy (selectedFrames ffmpegLines strategy tree)).filter
      fun g => decide (strategy.minFrames ≤ g.length)).map mkDetectedFeature

/-- The tree of candidate windows built by `detectPotentialBoundaries`
(lines 323-326): each silence is inserted with its duration as data. -/
def silenceWindows (silences : List Silence) : CandidateWindows :=
  silences.foldl (fun t s => treeInsert t s.startTime s.endTime (s.endTime - s.startTime)) []

/-- The strategy cascade of `detectPotentialBoundaries` (lines 328-337): try
each strategy in order and return the first non-empty candidate list; return
`[]` if every strategy comes up empty. -/
def strategyCandidates (ffmpegLines : List FfmpegLine) (tree : CandidateWindows) :
    List FrameSearchStrategy → List DetectedFeature
  | [] => []
  | s :: rest =>
    let cs := findBlackframeGroups ffmpegLines s tree
    if cs.isEmpty then strategyCandidates ffmpegLines tree rest else cs

/-- The pure core of the source's `detectPotentialBoundaries`: parse silences
from the diagnostic lines; if there are none, return `[]` without consulting
any strategy; otherwise build the candidate windows and run the strategy
cascade. -/
def detectPotentialBoundaries (ffmpegLines : List FfmpegLine) : List DetectedFeature :=
  let silences := findSilences ffmpegLines
  if silences.isEmpty then []
  else strategyCandidates ffmpegLines (silenceWindows silences) BOUNDARY_STRATEGIES

theorem strategyCandidates_all_empty (L : List FfmpegLine) (t : CandidateWindows) :
    ∀ ss : List FrameSearchStrategy,
      (∀ s ∈ ss, findBlackframeGroups L s t = []) → strategyCandidates L t ss = []
  | [], _ => rfl
  | s :: rest, h => by
      have hs : findBlackframeGroups L s t = [] := h s (List.mem_cons_self s rest)
      have hrest := strategyCandidates_all_empty L t rest
        (fun s' hs' => h s' (List.mem_cons_of_mem s hs'))
      simp [strategyCandidates, hs, hrest]

theorem strategyCandidates_first (L : List FfmpegLine) (t : CandidateWindows) :
    ∀ (pre : List FrameSearchStrategy) (s : FrameSearchStrategy)
      (post : List FrameSearchStrategy),
      (∀ s' ∈ pre, findBlackframeGroups L s' t = []) →
      findBlackframeGroups L s t ≠ [] →
      strategyCandidates L t (pre ++ s :: post) = findBlackframeGroups L s t
  | [], s, post, _, hs => by
      have : (findBlackframeGroups L s t).isEmpty = false := by
        simpa [List.isEmpty_iff] using hs
      simp [strategyCandidates, this]
  | p :: pre, s, post, hpre, hs => by
      have hp : findBlackframeGroups L p t = [] := hpre p (List.mem_cons_self p pre)
      have hrec := strategyCandidates_first L t pre s post
        (fun s' hs' => hpre s' (List.mem_cons_of_mem p hs')) hs
      simpa [strategyCandidates, hp] using hrec

/-- C1: the spec claims that `findBlackframeGroups` keeps a frame event iff
the duration of the silence window overlapping its time is at least
`minSilenceSeconds * 1000`.  The code does not enforce this: due to `??`
binding more loosely than `>=`, `keepBySilence` keeps any event inside a
window of non-zero duration.  Concretely, with the `black-logo` strategy
(`minSilenceSeconds = 1.5`, i.e. a 1500 ms threshold) and a single 200 ms
silence window `[0, 200]`, an event at 20 ms is kept, and five filter-11
events inside the window survive to form a reported run, where the claim
requires every event to be dropped (200 < 1500) and hence no runs. -/
theorem silence_threshold_not_enforced :
    keepBySilence
        { name := "black-logo", filters := [11], minSilenceSeconds := some (mkRat 3 2),
          minFrames := 5 }
        [(0, 200, 200)] 20 = true
    ∧ findBlackframeGroups
        [.silence (mkRat 1 5) (mkRat 1 5),
         .blackframe 11 1 99 (mkRat 1 50), .blackframe 11 2 99 (mkRat 2 50),
         .blackframe 11 3 99 (mkRat 3 50), .blackframe 11 4 99 (mkRat 4 50),
         .blackframe 11 5 99 (mkRat 5 50)]
        { name := "black-logo", filters := [11], minSilenceSeconds := some (mkRat 3 2),
          minFrames := 5 }
        (silenceWindows (findSilences [.silence (mkRat 1 5) (mkRat 1 5)]))
      = [⟨20, 100, 1, 5⟩]
    ∧ detectPotentialBoundaries
        [.silence (mkRat 1 5) (mkRat 1 5),
         .blackframe 11 1 99 (mkRat 1 50), .blackframe 11 2 99 (mkRat 2 50),
         .blackframe 11 3 99 (mkRat 3 50), .blackframe 11 4 99 (mkRat 4 50),
         .blackframe 11 5 99 (mkRat 5 50)]
      = [⟨20, 100, 1, 5⟩] := by decide

/-- C3: the spec claims the events entering the grouping step are sorted by
`(filterId, frameNumber)` ascending.  The comparator is
`compareFunc(['filterNum', 'frame'])`, but the mapped events have no `frame`
property (the field is `frameNum`), so the sort orders by `filterNum` only and
is stable.  With two filter-22 events at frames 11 (t = 1.0 s) and 10
(t = 0.9 s) in that input order, the sequence entering grouping is still
`[frame 11, frame 10]`, not the claimed `[frame 10, frame 11]`. -/
theorem frame_sort_ignores_frame_number :
    selectedFrames [.blackframe 22 11 99 1, .blackframe 22 10 99 (mkRat 9 10)]
        { name := "newsline", filters := [22], minSilenceSeconds := some 0, minFrames := 1 }
        []
      = [⟨22, 11, 1000⟩, ⟨22, 10, 900⟩]
    ∧ ([⟨22, 11, 1000⟩, ⟨22, 10, 900⟩] : List BlackframeOutput)
        ≠ [⟨22, 10, 900⟩, ⟨22, 11, 1000⟩] := by decide

/-- C4: run-grouping is greedy: an event appended to the input extends the
current (last) run iff it shares `filterNum` with the run's last event and the
frame-number gap is at most `maxSkip` (default 1), otherwise it starts a new
run; the emitted features are exactly the images of runs of length at least
`minFrames`; and events with `filterId = 1` at frames 10, 11, 30 under the
default `maxSkip = 1` group into exactly the runs `[10, 11]` and `[30]`. -/
theorem grouping_greedy_spec :
    (∀ (strat : FrameSearchStrategy) (fs : List BlackframeOutput) (f : BlackframeOutput)
        (g : List BlackframeOutput) (lf : BlackframeOutput),
        (groupFrames strat fs).getLast? = some g → g.getLast? = some lf →
        groupFrames strat (fs ++ [f]) =
          if (f.frameNum : ℤ) - (lf.frameNum : ℤ) ≤ (strat.maxSkip.getD 1 : ℤ)
              ∧ f.filterNum = lf.filterNum then
            (groupFrames strat fs).dropLast ++ [g ++ [f]]
          else groupFrames strat fs ++ [[f]])
    ∧ (∀ (L : List FfmpegLine) (strat : FrameSearchStrategy) (t : CandidateWindows)
        (feat : DetectedFeature),
        feat ∈ findBlackframeGroups L strat t ↔
          ∃ g ∈ groupFrames strat (selectedFrames L strat t),
            strat.minFrames ≤ g.length ∧ feat = mkDetectedFeature g)
    ∧ groupFrames { name := "s", filters := [1], minFrames := 1 }
        [⟨1, 10, 1000⟩, ⟨1, 11, 1100⟩, ⟨1, 30, 2000⟩]
      = [[⟨1, 10, 1000⟩, ⟨1, 11, 1100⟩], [⟨1, 30, 2000⟩]] := by
  refine ⟨?_, ?_, by decide⟩
  · intro strat fs f g lf hg hlf
    have hstep : groupFrames strat (fs ++ [f])
        = groupStep (strat.maxSkip.getD 1) (groupFrames strat fs) f := by
      rw [groupFrames, groupFrames, List.foldl_append, List.foldl_cons, List.foldl_nil]
    rw [hstep, groupStep, hg]
    dsimp only
    rw [hlf]
  · intro L strat t feat
    simp only [findBlackframeGroups, List.mem_map, List.mem_filter, decide_eq_true_eq]
    constructor
    · rintro ⟨g, ⟨hmem, hlen⟩, hfeat⟩
      exact ⟨g, hmem, hlen, hfeat.symm⟩
    · rintro ⟨g, hmem, hlen, hfeat⟩
      exact ⟨g, ⟨hmem, hlen⟩, hfeat.symm⟩

/-- Witness for `grouping_greedy_spec`: at the concrete event `⟨1, 11, 1100⟩`
appended after `⟨1, 10, 1000⟩`, the extension condition holds and the run is
extended. -/
theorem grouping_greedy_spec_witness :
    groupFrames { name := "s", filters := [1], minFrames := 1 }
        ([⟨1, 10, 1000⟩] ++ [⟨1, 11, 1100⟩])
      = (groupFrames { name := "s", filters := [1], minFrames := 1 }
          [⟨1, 10, 1000⟩]).dropLast ++ [[⟨1, 10, 1000⟩] ++ [⟨1, 11, 1100⟩]] := by
  have h := grouping_greedy_spec.1 { name := "s", filters := [1], minFrames := 1 }
    [⟨1, 10, 1000⟩] ⟨1, 11, 1100⟩ [⟨1, 10, 1000⟩] ⟨1, 10, 1000⟩ (by decide) (by decide)
  simpa using h

/-- C2: `detectPotentialBoundaries` returns `[]` when no silences are parsed;
otherwise the seven boundary strategies are consulted in declaration order and
the result is the candidate list of the first strategy with a non-empty list;
if every strategy's list is empty the result is `[]`. -/
theorem detect_boundaries_cascade :
    BOUNDARY_STRATEGIES.length = 7
    ∧ (∀ L : List FfmpegLine, findSilences L = [] → detectPotentialBoundaries L = [])
    ∧ (∀ (L : List FfmpegLine) (pre : List FrameSearchStrategy) (s : FrameSearchStrategy)
        (post : List FrameSearchStrategy),
        BOUNDARY_STRATEGIES = pre ++ s :: post →
        findSilences L ≠ [] →
        (∀ s' ∈ pre, findBlackframeGroups L s' (silenceWindows (findSilences L)) = []) →
        findBlackframeGroups L s (silenceWindows (findSilences L)) ≠ [] →
        detectPotentialBoundaries L
          = findBlackframeGroups L s (silenceWindows (findSilences L)))
    ∧ (∀ L : List FfmpegLine,
        (∀ s ∈ BOUNDARY_STRATEGIES,
          findBlackframeGroups L s (silenceWindows (findSilences L)) = []) →
        detectPotentialBoundaries L = []) := by
  refine ⟨rfl, ?_, ?_, ?_⟩
  · intro L h
    simp [detectPotentialBoundaries, h]
  · intro L pre s post hdecomp hne hpre hs
    have hie : (findSilences L).isEmpty = false := by
      simpa [List.isEmpty_iff] using hne
    rw [detectPotentialBoundaries]
    simp only [hie, Bool.false_eq_true, if_false]
    rw [hdecomp]
    exact strategyCandidates_first L (silenceWindows (findSilences L)) pre s post hpre hs
  · intro L hall
    by_cases h : (findSilences L).isEmpty
    · simp [detectPotentialBoundaries, h]
    · rw [detectPotentialBoundaries]
      simp only [h, Bool.false_eq_true, if_false]
      exact strategyCandidates_all_empty L (silenceWindows (findSilences L))
        BOUNDARY_STRATEGIES hall

/-- Witness for `detect_boundaries_cascade`: a run with no silence lines is
skipped entirely, and a run whose only candidates come from the seventh
(`newsline`) strategy returns that strategy's candidates. -/
theorem detect_boundaries_cascade_witness :
    detectPotentialBoundaries [.other] = []
    ∧ detectPotentialBoundaries
        [.silence (mkRat 1 5) (mkRat 1 5), .blackframe 22 3 99 (mkRat 1 50)]
      = findBlackframeGroups
          [.silence (mkRat 1 5) (mkRat 1 5), .blackframe 22 3 99 (mkRat 1 50)]
          { name := "newsline", filters := [22], minSilenceSeconds := some 0, minFrames := 1 }
          (silenceWindows
            (findSilences [.silence (mkRat 1 5) (mkRat 1 5),
              .blackframe 22 3 99 (mkRat 1 50)])) := by
  constructor
  · exact detect_boundaries_cascade.2.1 [.other] (by decide)
  · exact detect_boundaries_cascade.2.2.1
      [.silence (mkRat 1 5) (mkRat 1 5), .blackframe 22 3 99 (mkRat 1 50)]
      [ { name := "black-logo", filters := [11], minSilenceSeconds := some (mkRat 3 2),
          minFrames := 5 },
        { name := "white-logo", filters := [13], minSilenceSeconds := some (mkRat 3 2),
          minFrames := 5 },
        { name := "white-borders-logo", filters := [15],
          minSilenceSeconds := some (mkRat 3 2), minFrames := 5 },
        { name := "black-logo-ai-subtitles", filters := [17],
          minSilenceSeconds := some (mkRat 3 2), minFrames := 5 },
        { name := "black-no-logo-ai-subtitles", filters := [19],
          minSilenceSeconds := some (mkRat 3 2), minFrames := 5 },
        { name := "no-logo", filters := [20], minSilenceSeconds := some (mkRat 1 10),
          minFrames := 3 } ]
      { name := "newsline", filters := [22], minSilenceSeconds := some 0, minFrames := 1 }
      []
      (by decide) (by decide) (by decide) (by decide)

/-- C7: `findSilences` maps each matching silencedetect line to a `Silence`
with `endTime = round(silence_end * 1000)` and `startTime =
round((silence_end - silence_duration) * 1000)` and skips the other lines;
the example line with `silence_end 10.500` and `silence_duration 2.000` yields
`{startTime 8500, endTime 10500}`; and for every non-negative duration the
resulting `startTime` is at most `endTime`. -/
theorem findSilences_spec :
    (∀ (e d : ℚ) (rest : List FfmpegLine),
        findSilences (.silence e d :: rest)
          = { startTime := msOfSecondsSub e d, endTime := msOfSeconds e }
              :: findSilences rest)
    ∧ (∀ (rest : List FfmpegLine) (fn fr pb : ℕ) (t : ℚ),
        findSilences (.blackframe fn fr pb t :: rest) = findSilences rest)
    ∧ (∀ rest : List FfmpegLine, findSilences (.other :: rest) = findSilences rest)
    ∧ (∀ e : ℚ, msOfSeconds e = ⌊e * 1000 + 1 / 2⌋)
    ∧ (∀ e d : ℚ, msOfSecondsSub e d = ⌊(e - d) * 1000 + 1 / 2⌋)
    ∧ findSilences [.silence (mkRat 21 2) 2] = [⟨8500, 10500⟩]
    ∧ (∀ e d : ℚ, 0 ≤ d → msOfSecondsSub e d ≤ msOfSeconds e) := by
  refine ⟨fun e d rest => rfl, fun rest fn fr pb t => rfl, fun rest => rfl,
    msOfSeconds_eq_floor, msOfSecondsSub_eq_floor, by decide, ?_⟩
  intro e d hd
  rw [msOfSecondsSub_eq_floor, msOfSeconds_eq_floor]
  apply Int.floor_le_floor
  have h1000 : (e - d) * 1000 ≤ e * 1000 := by nlinarith
  linarith

/-- Witness for `findSilences_spec`: start is at most end at the example
line's values, and a non-matching line before it is skipped. -/
theorem findSilences_spec_witness :
    msOfSecondsSub (mkRat 21 2) 2 ≤ msOfSeconds (mkRat 21 2)
    ∧ findSilences [.other, .silence (mkRat 21 2) 2] = [⟨8500, 10500⟩] := by
  constructor
  · exact findSilences_spec.2.2.2.2.2.2 (mkRat 21 2) 2 (by decide)
  · rw [findSilences_spec.2.2.1]
    exact findSilences_spec.2.2.2.2.2.1

/-- A crop observation as produced by `detectCropArea`: `time` in milliseconds
(`parseFloat(t) * 1000`, not rounded) and the detected crop `width`
(`parseInt`). -/
structure CropParameters where
  time : ℚ
  width : ℤ
  deriving DecidableEq, Repr

/-- The ffmpeg expression emitted by `generateTimeSequence`, as a tree:
`val v` renders as the plain value `v`; `cond t v rest` renders as
`if(gte(t,<t/1000>),<v>,<rest>)`. -/
inductive TimeSeq where
  | val (v : ℤ)
  | cond (timeMs : ℚ) (v : ℤ) (rest : TimeSeq)
  deriving DecidableEq, Repr

/-- The recursion of `generateTimeSequence` on the reversed observation list
(the source repeatedly takes `last` and recurses on `init`, which is the same
as walking the reversed list head-first).  The source's guard is
`if (!time)`: it fires when the list is exhausted (`time` undefined, and the
destructuring default `width = defaultWidth` applies) and also when the
current observation's `time` equals `0`, since `!0` is `true` in
JavaScript. -/
def generateTimeSequenceRev (calcValue : ℤ → ℤ) (defaultWidth : ℤ) :
    List CropParameters → TimeSeq
  | [] => .val (calcValue defaultWidth)
  | p :: rest =>
      if p.time = 0 then .val (calcValue p.width)
      else .cond p.time (calcValue p.width)
        (generateTimeSequenceRev calcValue defaultWidth rest)

/-- The source's `generateTimeSequence` (lines 480-495). -/
def generateTimeSequence (calcValue : ℤ → ℤ) (cropParameters : List CropParameters)
    (defaultWidth : ℤ) : TimeSeq :=
  generateTimeSequenceRev calcValue defaultWidth cropParameters.reverse

/-- The value in the innermost else branch of a `TimeSeq` expression. -/
def innermostElse : TimeSeq → ℤ
  | .val v => v
  | .cond _ _ rest => innermostElse rest

/-- The observation width at which the `generateTimeSequence` recursion
terminates, scanning the reversed list (most recent observation first): the
width of the first observation with `time = 0`, or the default width if every
observation has a non-zero time. -/
def terminalWidthRev (defaultWidth : ℤ) : List CropParameters → ℤ
  | [] => defaultWidth
  | p :: rest => if p.time = 0 then p.width else terminalWidthRev defaultWidth rest

theorem innermostElse_generateTimeSequenceRev (calcValue : ℤ → ℤ) (defaultWidth : ℤ) :
    ∀ l : List CropParameters,
      innermostElse (generateTimeSequenceRev calcValue defaultWidth l)
        = calcValue (terminalWidthRev defaultWidth l)
  | [] => rfl
  | p :: rest => by
      by_cases h : p.time = 0
      · simp [generateTimeSequenceRev, terminalWidthRev, h, innermostElse]
      · simp [generateTimeSequenceRev, terminalWidthRev, h, innermostElse,
          innermostElse_generateTimeSequenceRev calcValue defaultWidth rest]

/-- C5 counterexample: at the single, time-ordered observation
`{time 1000 ms, width 960}` with default (target) width 1920 and the identity
value function, `generateTimeSequence` yields
`if(gte(t,1),960,<1920>)`: the innermost else branch is the *default width's*
value 1920, not the earliest observation's value 960 as claimed.  Moreover at
`{time 0, width 960}` the output is the plain value `960`, not a nested
conditional. -/
theorem generateTimeSequence_claim_false :
    generateTimeSequence (fun w => w) [⟨1000, 960⟩] 1920
      = .cond 1000 960 (.val 1920)
    ∧ innermostElse (generateTimeSequence (fun w => w) [⟨1000, 960⟩] 1920) = 1920
    ∧ (1920 : ℤ) ≠ 960
    ∧ generateTimeSequence (fun w => w) [⟨0, 960⟩] 1920 = .val 960 := by
  refine ⟨?_, ?_, by decide, ?_⟩ <;> rfl

/-- C5 amended: for a non-empty observation sequence whose most recent
observation has non-zero time, `generateTimeSequence` produces
`if(gte(t, mostRecent.time), f(mostRecent.width), <recurse on earlier>)`;
when the most recent observation's time is zero it produces the plain value
`f(mostRecent.width)`; and the innermost else branch holds `f` applied to the
width of the first observation with time 0 (scanning from the most recent
backward), or to the default width when no observation has time 0. -/
theorem generateTimeSequence_amended :
    (∀ (calcValue : ℤ → ℤ) (ps : List CropParameters) (p : CropParameters) (d : ℤ),
        p.time ≠ 0 →
        generateTimeSequence calcValue (ps ++ [p]) d
          = .cond p.time (calcValue p.width) (generateTimeSequence calcValue ps d))
    ∧ (∀ (calcValue : ℤ → ℤ) (ps : List CropParameters) (p : CropParameters) (d : ℤ),
        p.time = 0 →
        generateTimeSequence calcValue (ps ++ [p]) d = .val (calcValue p.width))
    ∧ (∀ (calcValue : ℤ → ℤ) (ps : List CropParameters) (d : ℤ),
        innermostElse (generateTimeSequence calcValue ps d)
          = calcValue (terminalWidthRev d ps.reverse)) := by
  refine ⟨?_, ?_, ?_⟩
  · intro calcValue ps p d hp
    simp [generateTimeSequence, generateTimeSequenceRev, hp]
  · intro calcValue ps p d hp
    simp [generateTimeSequence, generateTimeSequenceRev, hp]
  · intro calcValue ps d
    exact innermostElse_generateTimeSequenceRev calcValue d ps.reverse

/-- Witness for `generateTimeSequence_amended` at the observation
`{time 1000, width 960}` appended to the empty sequence. -/
theorem generateTimeSequence_amended_witness :
    generateTimeSequence (fun w => w) ([] ++ [⟨1000, 960⟩]) 1920
      = .cond 1000 960 (generateTimeSequence (fun w => w) [] 1920)
    ∧ generateTimeSequence (fun w => w) ([] ++ [⟨0, 960⟩]) 1920 = .val 960 := by
  constructor
  · exact generateTimeSequence_amended.1 (fun w => w) [] ⟨1000, 960⟩ 1920 (by decide)
  · exact generateTimeSequence_amended.2.1 (fun w => w) [] ⟨0, 960⟩ 1920 (by decide)

/-- The source's `makeCalculateScaleWidth` (lines 498-499):
`Math.round(outputWidth * outputWidth / cropWidth / 2) * 2`.  The exact value
`ow² / c / 2` equals `ow² / (2c)`; a non-positive crop width (division by zero
in JavaScript) is outside the domain considered by the claims. -/
def calculateScaleWidth (outputWidth cropWidth : ℤ) : ℤ :=
  roundDiv (outputWidth * outputWidth) (2 * cropWidth) * 2

/-- The source's `makeCalculateOverlayPosition` (lines 502-503):
`Math.round((cropWidth - outputWidth) / 2)`. -/
def calculateOverlayPosition (outputWidth cropWidth : ℤ) : ℤ :=
  roundDiv (cropWidth - outputWidth) 2

/-- C9: for positive crop and target widths the scaled width is even and the
calculators compute `round(targetWidth² / cropWidth / 2) * 2` and
`round((cropWidth - targetWidth) / 2)`; for the single observation
`{time 0, width 1920}` with target width 1920 the computed overlay offset is 0
and the computed scaled width is 1920. -/
theorem scale_width_spec :
    (∀ c w : ℤ, 0 < c → 0 < w → 2 ∣ calculateScaleWidth w c)
    ∧ (∀ c w : ℤ, 0 < c →
        calculateScaleWidth w c = ⌊(w : ℚ) * (w : ℚ) / (2 * (c : ℚ)) + 1 / 2⌋ * 2)
    ∧ (∀ c w : ℤ, calculateOverlayPosition w c = ⌊((c : ℚ) - (w : ℚ)) / 2 + 1 / 2⌋)
    ∧ calculateOverlayPosition 1920 1920 = 0
    ∧ calculateScaleWidth 1920 1920 = 1920
    ∧ generateTimeSequence (calculateOverlayPosition 1920) [⟨0, 1920⟩] 1920 = .val 0
    ∧ generateTimeSequence (calculateScaleWidth 1920) [⟨0, 1920⟩] 1920 = .val 1920 := by
  refine ⟨?_, ?_, ?_, by decide, by decide, by decide, by decide⟩
  · intro c w _ _
    exact Dvd.intro _ (mul_comm _ _)
  · intro c w hc
    have h2c : (0 : ℤ) < 2 * c := by linarith
    rw [calculateScaleWidth, roundDiv_eq_floor _ h2c]
    push_cast
    ring_nf
  · intro c w
    have h2 : (0 : ℤ) < 2 := by norm_num
    rw [calculateOverlayPosition, roundDiv_eq_floor _ h2]
    push_cast
    ring_nf

/-- Witness for `scale_width_spec` at crop width 960 and target width 1920:
the scaled width is even. -/
theorem scale_width_spec_witness :
    2 ∣ calculateScaleWidth 1920 960
    ∧ calculateScaleWidth 1920 960
        = ⌊(1920 : ℚ) * (1920 : ℚ) / (2 * (960 : ℚ)) + 1 / 2⌋ * 2 := by
  constructor
  · exact scale_width_spec.1 960 1920 (by decide) (by decide)
  · exact scale_width_spec.2.1 960 1920 (by decide)

/-- Decimal digit character for `d < 10` (used to model JavaScript number
printing in template interpolations). -/
def digitChar (d : ℕ) : Char :=
  if d = 0 then '0' else if d = 1 then '1' else if d = 2 then '2'
  else if d = 3 then '3' else if d = 4 then '4' else if d = 5 then '5'
  else if d = 6 then '6' else if d = 7 then '7' else if d = 8 then '8' else '9'

/-- Base-10 digit list of a natural number, most significant first.  Fuel-based
structural recursion (`fuel ≥ n + 1` suffices) so that it evaluates inside the
kernel. -/
def natToDigitsAux : ℕ → ℕ → List Char
  | 0, _ => []
  | fuel + 1, n =>
      if n < 10 then [digitChar n]
      else natToDigitsAux fuel (n / 10) ++ [digitChar (n % 10)]

/-- Decimal digit string of a natural number, as printed by JavaScript. -/
def natToDigits (n : ℕ) : List Char := natToDigitsAux (n + 1) n

/-- JavaScript decimal rendering of an integer. -/
def intToString (i : ℤ) : String :=
  ⟨(if i < 0 then ['-'] else []) ++ natToDigits i.natAbs⟩

/-- Fractional part of the JavaScript rendering of `n / 1000` for an integer
millisecond count: three decimal digits with trailing zeros stripped, empty
when the remainder is zero. -/
def msFracDigits (r : ℕ) : List Char :=
  if r = 0 then []
  else '.' ::
    (([digitChar (r / 100), digitChar ((r / 10) % 10), digitChar (r % 10)].reverse.dropWhile
        (fun c => c = '0')).reverse)

/-- JavaScript rendering of `${n / 1000}` for an integer millisecond count
`n`: sign, integer seconds, then the stripped three-digit fraction. -/
def msToSecString (n : ℤ) : String :=
  ⟨(if n < 0 then ['-'] else []) ++ natToDigits (n.natAbs / 1000) ++ msFracDigits (n.natAbs % 1000)⟩

/-- Characters that can appear in a rendered number: `-`, `.`, digits. -/
def isNumChar (c : Char) : Bool := c == '-' || c == '.' || c.isDigit

theorem digitChar_numChar (d : ℕ) : isNumChar (digitChar d) = true := by
  rw [digitChar]
  split_ifs <;> decide

theorem natToDigitsAux_numChar :
    ∀ (fuel n : ℕ), ∀ c ∈ natToDigitsAux fuel n, isNumChar c = true
  | 0, _, c, hc => by cases hc
  | fuel + 1, n, c, hc => by
      rw [natToDigitsAux] at hc
      split at hc
      · rcases List.mem_singleton.mp hc with rfl
        exact digitChar_numChar n
      · rcases List.mem_append.mp hc with h | h
        · exact natToDigitsAux_numChar fuel (n / 10) c h
        · rcases List.mem_singleton.mp h with rfl
          exact digitChar_numChar (n % 10)

theorem intToString_numChar (i : ℤ) : ∀ c ∈ (intToString i).data, isNumChar c = true := by
  intro c hc
  rw [intToString] at hc
  rcases List.mem_append.mp hc with h | h
  · split at h
    · rcases List.mem_singleton.mp h with rfl
      decide
    · cases h
  · exact natToDigitsAux_numChar _ _ c h

theorem msFracDigits_numChar (r : ℕ) : ∀ c ∈ msFracDigits r, isNumChar c = true := by
  intro c hc
  rw [msFracDigits] at hc
  split at hc
  · cases hc
  · rcases List.mem_cons.mp hc with rfl | h
    · decide
    · have h2 := List.mem_reverse.mp h
      have h3 := (List.dropWhile_sublist (fun c => c = '0')).subset h2
      have h4 := List.mem_reverse.mp h3
      simp only [List.mem_cons, List.not_mem_nil, or_false] at h4
      rcases h4 with rfl | rfl | rfl <;> exact digitChar_numChar _

theorem msToSecString_numChar (n : ℤ) : ∀ c ∈ (msToSecString n).data, isNumChar c = true := by
  intro c hc
  rw [msToSecString] at hc
  rcases List.mem_append.mp hc with h | h
  · rcases List.mem_append.mp h with h1 | h1
    · split at h1
      · rcases List.mem_singleton.mp h1 with rfl
        decide
      · cases h1
    · exact natToDigitsAux_numChar _ _ c h1
  · exact msFracDigits_numChar _ c h

theorem ne_of_numChar_of_bad {r s : String}
    (hr : ∀ c ∈ r.data, isNumChar c = true)
    (hs : ∃ c ∈ s.data, isNumChar c = false) : r ≠ s := by
  rintro rfl
  obtain ⟨c, hc, hbad⟩ := hs
  rw [hr c hc] at hbad
  cases hbad

theorem intToString_ne (i : ℤ) {s : String}
    (hs : ∃ c ∈ s.data, isNumChar c = false) : intToString i ≠ s :=
  ne_of_numChar_of_bad (intToString_numChar i) hs

theorem msToSecString_ne (n : ℤ) {s : String}
    (hs : ∃ c ∈ s.data, isNumChar c = false) : msToSecString n ≠ s :=
  ne_of_numChar_of_bad (msToSecString_numChar n) hs

/-- JavaScript `Array.prototype.join(';')`. -/
def joinSemi : List String → String
  | [] => ""
  | [s] => s
  | s :: t :: rest => s ++ ";" ++ joinSemi (t :: rest)

theorem joinSemi_head_length_le :
    ∀ (s : String) (rest : List String), s.length ≤ (joinSemi (s :: rest)).length
  | _, [] => le_refl _
  | s, t :: rest => by
      show s.length ≤ (s ++ ";" ++ joinSemi (t :: rest)).length
      simp only [String.length_append]
      omega

/-- Rendering of the millisecond timestamp `t / 1000` inside a time-sequence
expression.  JavaScript prints the quotient as a decimal float; this
development renders the exact rational as `num/den`.  No claim depends on this
rendering, only on the structure of the strings around it. -/
def msqToSecString (t : ℚ) : String :=
  intToString t.num ++ "/" ++ ⟨natToDigits (1000 * t.den)⟩

/-- String rendering of a `TimeSeq` expression, as emitted by the source's
`generateTimeSequence`. -/
def renderTimeSeq : TimeSeq → String
  | .val v => intToString v
  | .cond t v rest =>
      "if(gte(t," ++ msqToSecString t ++ ")," ++ intToString v ++ ","
        ++ renderTimeSeq rest ++ ")"

/-- The filter strings assembled by `generateFilterChain` (lines 516-540): the
four-entry crop-correction chain when there are crop observations, then the
thumbnail `setpts` filter when the input has an attached thumbnail. -/
def filterChainParts (start : ℤ) (cropParameters : List CropParameters)
    (hasThumbnail : Bool) (targetWidth targetHeight : ℤ) : List String :=
  (if 0 < cropParameters.length then
    [ "nullsrc=size=" ++ intToString targetWidth ++ "x" ++ intToString targetHeight
        ++ ":r=29.97[base]",
      "[base][0:0]overlay=\x27"
        ++ renderTimeSeq (generateTimeSequence (calculateOverlayPosition targetWidth)
            cropParameters targetWidth)
        ++ "\x27:0:shortest=1[o]",
      "[o]scale=\x27"
        ++ renderTimeSeq (generateTimeSequence (calculateScaleWidth targetWidth)
            cropParameters targetWidth)
        ++ "\x27:-1:eval=frame:flags=bicubic[s]",
      "[s]crop=" ++ intToString targetWidth ++ ":" ++ intToString targetHeight
        ++ ":0:0[c]" ]
  else []) ++
  (if hasThumbnail then ["[1:2]setpts=PTS+" ++ msToSecString start ++ "/TB[tn]"] else [])

/-- The source's `generateFilterChain` (lines 506-543): join the parts with
`;`; an empty joined string is falsy, so no `-filter_complex` argument is
produced in that case. -/
def generateFilterChain (start : ℤ) (cropParameters : List CropParameters)
    (hasThumbnail : Bool) (targetWidth targetHeight : ℤ) : List String :=
  if joinSemi (filterChainParts start cropParameters hasThumbnail targetWidth targetHeight)
      = "" then []
  else ["-filter_complex",
    joinSemi (filterChainParts start cropParameters hasThumbnail targetWidth targetHeight)]

/-- The source's `getFfmpegPostProcessArguments` (lines 546-585), with
`config.threadLimit` as the `threadLimit` parameter.  `end` is falsy exactly
when it is `0`, so the `-to` pair is emitted iff `end ≠ 0`. -/
def getFfmpegPostProcessArguments (threadLimit : ℤ) (inputPath outputPath : String)
    (start endTime : ℤ) (cropParameters : List CropParameters) (hasThumbnail : Bool)
    (targetWidth targetHeight : ℤ) : List String :=
  ["-y"]
  ++ (if 0 < threadLimit then ["-threads", intToString threadLimit] else [])
  ++ ["-i", inputPath]
  ++ (if hasThumbnail then ["-i", inputPath] else [])
  ++ ["-ss", msToSecString start]
  ++ (if endTime ≠ 0 then ["-to", msToSecString endTime] else [])
  ++ ["-codec", "copy"]
  ++ generateFilterChain start cropParameters hasThumbnail targetWidth targetHeight
  ++ (if 0 < cropParameters.length then
        ["-map", "[c]", "-crf", "19", "-preset", "veryfast", "-codec:v:0", "libx264"]
      else ["-map", "0:0"])
  ++ ["-map", "0:1"]
  ++ (if hasThumbnail then
        ["-map", "[tn]", "-codec:v:1", "mjpeg", "-disposition:v:1", "attached_pic"]
      else [])
  ++ ["-map_metadata", "0", "-f", "mp4", outputPath]

theorem filterChain_join_length (start : ℤ) (crop : List CropParameters) (ht : Bool)
    (tw th : ℤ) (h : 0 < crop.length ∨ ht = true) :
    13 ≤ (joinSemi (filterChainParts start crop ht tw th)).length := by
  by_cases hcrop : 0 < crop.length
  · rw [filterChainParts, if_pos hcrop, List.cons_append]
    refine le_trans ?_ (joinSemi_head_length_le _ _)
    have h13 : ("nullsrc=size=" : String).length = 13 := rfl
    simp only [String.length_append]
    omega
  · rcases h with h | hht
    · exact absurd h hcrop
    · rw [filterChainParts, if_neg hcrop, if_pos hht, List.nil_append]
      show 13 ≤ ("[1:2]setpts=PTS+" ++ msToSecString start ++ "/TB[tn]").length
      have h16 : ("[1:2]setpts=PTS+" : String).length = 16 := rfl
      simp only [String.length_append]
      omega

theorem generateFilterChain_elem (start : ℤ) (crop : List CropParameters) (ht : Bool)
    (tw th : ℤ) :
    ∀ x ∈ generateFilterChain start crop ht tw th,
      (0 < crop.length ∨ ht = true) ∧ (x = "-filter_complex" ∨ 13 ≤ x.length) := by
  intro x hx
  rw [generateFilterChain] at hx
  split at hx
  · cases hx
  · rename_i hne
    have hcond : 0 < crop.length ∨ ht = true := by
      by_contra hcon
      rw [not_or] at hcon
      obtain ⟨h1, h2⟩ := hcon
      apply hne
      have hparts : filterChainParts start crop ht tw th = [] := by
        rw [filterChainParts, if_neg h1]
        cases ht
        · rfl
        · exact absurd rfl h2
      rw [hparts]
      rfl
    refine ⟨hcond, ?_⟩
    rcases List.mem_cons.mp hx with rfl | hx2
    · exact Or.inl rfl
    · rcases List.mem_singleton.mp hx2 with rfl
      exact Or.inr (filterChain_join_length start crop ht tw th hcond)

theorem postArgs_mem (tl : ℤ) (inp out : String) (s e : ℤ) (crop : List CropParameters)
    (ht : Bool) (tw th : ℤ) :
    ∀ x ∈ getFfmpegPostProcessArguments tl inp out s e crop ht tw th,
      x ∈ (["-y", "-i", "-ss", "-codec", "copy", "-map", "0:1", "-map_metadata", "0",
          "-f", "mp4"] : List String)
      ∨ x = inp ∨ x = out ∨ x = msToSecString s
      ∨ (0 < tl ∧ (x = "-threads" ∨ x = intToString tl))
      ∨ (e ≠ 0 ∧ (x = "-to" ∨ x = msToSecString e))
      ∨ ((0 < crop.length ∨ ht = true) ∧ (x = "-filter_complex" ∨ 13 ≤ x.length))
      ∨ (0 < crop.length ∧ x ∈ (["[c]", "-crf", "19", "-preset", "veryfast",
          "-codec:v:0", "libx264"] : List String))
      ∨ (¬ 0 < crop.length ∧ x = "0:0")
      ∨ (ht = true ∧ x ∈ (["[tn]", "-codec:v:1", "mjpeg", "-disposition:v:1",
          "attached_pic"] : List String)) := by
  intro x hx
  rw [getFfmpegPostProcessArguments] at hx
  simp only [List.mem_append, or_assoc] at hx
  rcases hx with h | h | h | h | h | h | h | h | h | h | h | h
  · rcases List.mem_singleton.mp h with rfl
    simp
  · by_cases htl : 0 < tl
    · rw [if_pos htl] at h
      simp only [List.mem_cons, List.not_mem_nil, or_false] at h
      rcases h with rfl | rfl <;> simp [htl]
    · rw [if_neg htl] at h
      cases h
  · simp only [List.mem_cons, List.not_mem_nil, or_false] at h
    rcases h with rfl | rfl <;> simp
  · by_cases hht : ht = true
    · rw [if_pos hht] at h
      simp only [List.mem_cons, List.not_mem_nil, or_false] at h
      rcases h with rfl | rfl <;> simp
    · rw [if_neg hht] at h
      cases h
  · simp only [List.mem_cons, List.not_mem_nil, or_false] at h
    rcases h with rfl | rfl <;> simp
  · by_cases he : e ≠ 0
    · rw [if_pos he] at h
      simp only [List.mem_cons, List.not_mem_nil, or_false] at h
      rcases h with rfl | rfl <;> simp [he]
    · rw [if_neg he] at h
      cases h
  · simp only [List.mem_cons, List.not_mem_nil, or_false] at h
    rcases h with rfl | rfl <;> simp
  · rcases generateFilterChain_elem s crop ht tw th x h with ⟨hcond, hform⟩
    rcases hform with rfl | hlen
    · simp [hcond]
    · simp [hcond, hlen]
  · by_cases hcrop : 0 < crop.length
    · rw [if_pos hcrop] at h
      simp only [List.mem_cons, List.not_mem_nil, or_false] at h
      rcases h with rfl | rfl | rfl | rfl | rfl | rfl | rfl | rfl <;> simp [hcrop]
    · rw [if_neg hcrop] at h
      simp only [List.mem_cons, List.not_mem_nil, or_false] at h
      rcases h with rfl | rfl <;> simp [hcrop]
  · simp only [List.mem_cons, List.not_mem_nil, or_false] at h
    rcases h with rfl | rfl <;> simp
  · by_cases hht : ht = true
    · rw [if_pos hht] at h
      simp only [List.mem_cons, List.not_mem_nil, or_false] at h
      rcases h with rfl | rfl | rfl | rfl | rfl | rfl <;> simp [hht]
    · rw [if_neg hht] at h
      cases h
  · simp only [List.mem_cons, List.not_mem_nil, or_false] at h
    rcases h with rfl | rfl | rfl | rfl | rfl <;> simp

/-- C10: when `end = 0`, the produced post-processing argument list contains
no `-to` end-trim argument: `end` is falsy, so the trim applies only at the
start and `0` means "no end bound" rather than the empty interval.  The input
and output paths are assumed to differ from the literal `-to`. -/
theorem end_zero_no_end_trim (tl : ℤ) (inp out : String) (s : ℤ)
    (crop : List CropParameters) (ht : Bool) (tw th : ℤ)
    (hin : inp ≠ "-to") (hout : out ≠ "-to") :
    "-to" ∉ getFfmpegPostProcessArguments tl inp out s 0 crop ht tw th := by
  intro hmem
  rcases postArgs_mem tl inp out s 0 crop ht tw th _ hmem with
    hpool | h | h | h | h | h | h | h | h | h
  · exact absurd hpool (by decide)
  · exact hin h.symm
  · exact hout h.symm
  · exact absurd h.symm (msToSecString_ne s ⟨'t', by decide, by decide⟩)
  · rcases h with ⟨-, h2 | h2⟩
    · exact absurd h2 (by decide)
    · exact absurd h2.symm (intToString_ne tl ⟨'t', by decide, by decide⟩)
  · exact h.1 rfl
  · rcases h with ⟨-, h2 | h2⟩
    · exact absurd h2 (by decide)
    · have h3 : ("-to" : String).length = 3 := rfl
      omega
  · exact absurd h.2 (by decide)
  · exact absurd h.2 (by decide)
  · exact absurd h.2 (by decide)

/-- Witness for `end_zero_no_end_trim` at a concrete call. -/
theorem end_zero_no_end_trim_witness :
    "-to" ∉ getFfmpegPostProcessArguments 0 "in.mp4" "out.mp4" 90000 0 [] false 1920 1080 :=
  end_zero_no_end_trim 0 "in.mp4" "out.mp4" 90000 [] false 1920 1080
    (by decide) (by decide)

/-- C6 counterexample: with an empty crop-observation sequence but an attached
thumbnail, the argument list does contain a `-filter_complex` filter graph
(the thumbnail `setpts` chain), so "no filter graph is emitted when the
crop-observation sequence is empty" fails as stated. -/
theorem filter_graph_emitted_with_thumbnail :
    "-filter_complex"
      ∈ getFfmpegPostProcessArguments 0 "in.mp4" "out.mp4" 0 0 [] true 1920 1080 := by
  decide

/-- C6 amended: when the crop-observation sequence is empty, no *correction*
filter graph is emitted — with no attached thumbnail there is no
`-filter_complex` at all, and in every empty-crop case the video stream is
mapped for direct stream copy (`-map 0:0` under the global `-codec copy`)
with no `libx264` encoder and no `[c]` graph-output mapping; when the
sequence is non-empty the video is re-encoded: `-filter_complex` is present
and the graph output `[c]` is mapped with `-codec:v:0 libx264`; in both cases
the audio stream (`-map 0:1`) and the metadata (`-map_metadata 0`) are mapped
for copy.  Paths are assumed to differ from the distinguished literals. -/
theorem post_process_args_amended :
    (∀ (tl : ℤ) (inp out : String) (s e tw th : ℤ),
        inp ≠ "-filter_complex" → out ≠ "-filter_complex" →
        "-filter_complex" ∉ getFfmpegPostProcessArguments tl inp out s e [] false tw th)
    ∧ (∀ (tl : ℤ) (inp out : String) (s e tw th : ℤ) (ht : Bool),
        "0:0" ∈ getFfmpegPostProcessArguments tl inp out s e [] ht tw th)
    ∧ (∀ (tl : ℤ) (inp out : String) (s e tw th : ℤ) (ht : Bool),
        inp ≠ "libx264" → out ≠ "libx264" →
        "libx264" ∉ getFfmpegPostProcessArguments tl inp out s e [] ht tw th)
    ∧ (∀ (tl : ℤ) (inp out : String) (s e tw th : ℤ) (ht : Bool),
        inp ≠ "[c]" → out ≠ "[c]" →
        "[c]" ∉ getFfmpegPostProcessArguments tl inp out s e [] ht tw th)
    ∧ (∀ (tl : ℤ) (inp out : String) (s e tw th : ℤ) (ht : Bool)
        (crop : List CropParameters), crop ≠ [] →
        "-filter_complex" ∈ getFfmpegPostProcessArguments tl inp out s e crop ht tw th
        ∧ "[c]" ∈ getFfmpegPostProcessArguments tl inp out s e crop ht tw th
        ∧ "libx264" ∈ getFfmpegPostProcessArguments tl inp out s e crop ht tw th)
    ∧ (∀ (tl : ℤ) (inp out : String) (s e tw th : ℤ) (ht : Bool)
        (crop : List CropParameters),
        "-codec" ∈ getFfmpegPostProcessArguments tl inp out s e crop ht tw th
        ∧ "copy" ∈ getFfmpegPostProcessArguments tl inp out s e crop ht tw th
        ∧ "0:1" ∈ getFfmpegPostProcessArguments tl inp out s e crop ht tw th
        ∧ "-map_metadata" ∈ getFfmpegPostProcessArguments tl inp out s e crop ht tw th
        ∧ "0" ∈ getFfmpegPostProcessArguments tl inp out s e crop ht tw th) := by
  refine ⟨?_, ?_, ?_, ?_, ?_, ?_⟩
  · intro tl inp out s e tw th hin hout hmem
    rcases postArgs_mem tl inp out s e [] false tw th _ hmem with
      hpool | h | h | h | h | h | h | h | h | h
    · exact absurd hpool (by decide)
    · exact hin h.symm
    · exact hout h.symm
    · exact absurd h.symm (msToSecString_ne s ⟨'f', by decide, by decide⟩)
    · rcases h with ⟨-, h2 | h2⟩
      · exact absurd h2 (by decide)
      · exact absurd h2.symm (intToString_ne tl ⟨'f', by decide, by decide⟩)
    · rcases h with ⟨-, h2 | h2⟩
      · exact absurd h2 (by decide)
      · exact absurd h2.symm (msToSecString_ne e ⟨'f', by decide, by decide⟩)
    · rcases h.1 with hc | hc
      · simp at hc
      · cases hc
    · simp at h
    · exact absurd h.2 (by decide)
    · rcases h with ⟨hc, -⟩
      cases hc
  · intro tl inp out s e tw th ht
    simp [getFfmpegPostProcessArguments, List.mem_append]
  · intro tl inp out s e tw th ht hin hout hmem
    rcases postArgs_mem tl inp out s e [] ht tw th _ hmem with
      hpool | h | h | h | h | h | h | h | h | h
    · exact absurd hpool (by decide)
    · exact hin h.symm
    · exact hout h.symm
    · exact absurd h.symm (msToSecString_ne s ⟨'l', by decide, by decide⟩)
    · rcases h with ⟨-, h2 | h2⟩
      · exact absurd h2 (by decide)
      · exact absurd h2.symm (intToString_ne tl ⟨'l', by decide, by decide⟩)
    · rcases h with ⟨-, h2 | h2⟩
      · exact absurd h2 (by decide)
      · exact absurd h2.symm (msToSecString_ne e ⟨'l', by decide, by decide⟩)
    · rcases h with ⟨-, h2 | h2⟩
      · exact absurd h2 (by decide)
      · have h3 : ("libx264" : String).length = 7 := rfl
        omega
    · simp at h
    · exact absurd h.2 (by decide)
    · exact absurd h.2 (by decide)
  · intro tl inp out s e tw th ht hin hout hmem
    rcases postArgs_mem tl inp out s e [] ht tw th _ hmem with
      hpool | h | h | h | h | h | h | h | h | h
    · exact absurd hpool (by decide)
    · exact hin h.symm
    · exact hout h.symm
    · exact absurd h.symm (msToSecString_ne s ⟨'[', by decide, by decide⟩)
    · rcases h with ⟨-, h2 | h2⟩
      · exact absurd h2 (by decide)
      · exact absurd h2.symm (intToString_ne tl ⟨'[', by decide, by decide⟩)
    · rcases h with ⟨-, h2 | h2⟩
      · exact absurd h2 (by decide)
      · exact absurd h2.symm (msToSecString_ne e ⟨'[', by decide, by decide⟩)
    · rcases h with ⟨-, h2 | h2⟩
      · exact absurd h2 (by decide)
      · have h3 : ("[c]" : String).length = 3 := rfl
        omega
    · simp at h
    · exact absurd h.2 (by decide)
    · exact absurd h.2 (by decide)
  · intro tl inp out s e tw th ht crop hcrop
    have hlen : 0 < crop.length := List.length_pos.mpr hcrop
    have h13 := filterChain_join_length s crop ht tw th (Or.inl hlen)
    have hne : joinSemi (filterChainParts s crop ht tw th) ≠ "" := by
      intro h0
      rw [h0] at h13
      have h0' : ("" : String).length = 0 := rfl
      omega
    refine ⟨?_, ?_, ?_⟩ <;>
      simp [getFfmpegPostProcessArguments, generateFilterChain, hne, hlen, List.mem_append]
  · intro tl inp out s e tw th ht crop
    refine ⟨?_, ?_, ?_, ?_, ?_⟩ <;> simp [getFfmpegPostProcessArguments, List.mem_append]

/-- Witness for `post_process_args_amended` at concrete calls with and without
crop observations. -/
theorem post_process_args_amended_witness :
    "-filter_complex"
        ∉ getFfmpegPostProcessArguments 0 "in.mp4" "out.mp4" 0 0 [] false 1920 1080
    ∧ "-filter_complex"
        ∈ getFfmpegPostProcessArguments 0 "in.mp4" "out.mp4" 0 0 [⟨0, 960⟩] false 1920 1080
    ∧ "libx264"
        ∉ getFfmpegPostProcessArguments 0 "in.mp4" "out.mp4" 0 0 [] true 1920 1080 := by
  refine ⟨?_, ?_, ?_⟩
  · exact post_process_args_amended.1 0 "in.mp4" "out.mp4" 0 0 1920 1080
      (by decide) (by decide)
  · exact (post_process_args_amended.2.2.2.2.1 0 "in.mp4" "out.mp4" 0 0 1920 1080 false
      [⟨0, 960⟩] (by decide)).1
  · exact post_process_args_amended.2.2.1 0 "in.mp4" "out.mp4" 0 0 1920 1080 true
      (by decide) (by decide)

/-- One entry of the ffprobe `streams` array, with the four dimension fields
optionally present (`none` models an absent JSON field). -/
structure ProbeStream where
  width : Option ℤ := none
  height : Option ℤ := none
  coded_width : Option ℤ := none
  coded_height : Option ℤ := none
  deriving DecidableEq, Repr

/-- The pure core of the source's `getVideoDimensions` (lines 160-185):
`stream = (result.streams ?? [])[0] ?? {}`, `width = stream.width ??
stream.coded_width`, `height = stream.height ?? stream.coded_height`, and
`if (!width || !height) throw` — a JavaScript number is falsy iff it is `0`
(or the field is absent), so the failure fires when a selected value is
absent or zero. -/
def getVideoDimensionsPure (streams : List ProbeStream) : Except Unit (ℤ × ℤ) :=
  let stream := streams.headD {}
  match stream.width.or stream.coded_width, stream.height.or stream.coded_height with
  | some w, some h => if w = 0 ∨ h = 0 then .error () else .ok (w, h)
  | _, _ => .error ()

/-- The dimension selection of `postProcessRecording` (lines 595-606): use the
probed dimensions, falling back to the defaults 1920 x 1080 when
`getVideoDimensions` throws (the `catch` branch). -/
def postProcessTargetDims (streams : List ProbeStream) : ℤ × ℤ :=
  match getVideoDimensionsPure streams with
  | .ok d => d
  | .error _ => (1920, 1080)

/-- C8 counterexample: a stream whose primary `width` field is present but
zero.  The claim says the primary fields are returned when present, i.e.
`.ok (0, 1080)`; the code treats `0` as falsy and throws instead (and
`postProcessRecording` then falls back to 1920 x 1080). -/
theorem video_dimensions_zero_width :
    getVideoDimensionsPure
        [{ width := some 0, height := some 1080,
           coded_width := some 1920, coded_height := some 1080 }] = .error ()
    ∧ getVideoDimensionsPure
        [{ width := some 0, height := some 1080,
           coded_width := some 1920, coded_height := some 1080 }] ≠ .ok (0, 1080)
    ∧ postProcessTargetDims
        [{ width := some 0, height := some 1080,
           coded_width := some 1920, coded_height := some 1080 }] = (1920, 1080) := by
  refine ⟨rfl, ?_, rfl⟩
  intro h
  cases h

/-- C8 amended: `getVideoDimensions` returns the per-axis `??`-selected pair
(primary preferred, coded as fallback) when both selected values are present
and non-zero; it fails when a selected value is absent or zero — in
particular when neither the primary nor the coded field of some axis is
present; `postProcessRecording` catches the failure and continues with
1920 x 1080, so the failure never propagates: the selected dimensions are
always either the probed pair or the default pair. -/
theorem video_dimensions_amended :
    (∀ (s : ProbeStream) (rest : List ProbeStream) (a b : ℤ),
        s.width.or s.coded_width = some a → a ≠ 0 →
        s.height.or s.coded_height = some b → b ≠ 0 →
        getVideoDimensionsPure (s :: rest) = .ok (a, b))
    ∧ (∀ (s : ProbeStream) (rest : List ProbeStream),
        s.width.or s.coded_width = none ∨ s.width.or s.coded_width = some 0
          ∨ s.height.or s.coded_height = none ∨ s.height.or s.coded_height = some 0 →
        getVideoDimensionsPure (s :: rest) = .error ())
    ∧ (∀ (s : ProbeStream) (rest : List ProbeStream),
        s.width = none → s.coded_width = none →
        getVideoDimensionsPure (s :: rest) = .error ())
    ∧ (∀ streams : List ProbeStream,
        getVideoDimensionsPure streams = .error () →
        postProcessTargetDims streams = (1920, 1080))
    ∧ (∀ streams : List ProbeStream,
        (∃ d, getVideoDimensionsPure streams = .ok d ∧ postProcessTargetDims streams = d)
        ∨ (getVideoDimensionsPure streams = .error ()
            ∧ postProcessTargetDims streams = (1920, 1080))) := by
  refine ⟨?_, ?_, ?_, ?_, ?_⟩
  · intro s rest a b hw ha hh hb
    rw [getVideoDimensionsPure]
    simp only [List.headD_cons]
    rw [hw, hh]
    simp [ha, hb]
  · intro s rest hcase
    rw [getVideoDimensionsPure]
    simp only [List.headD_cons]
    rcases hcase with h | h | h | h
    · simp [h]
    · cases hh : s.height.or s.coded_height <;> simp [h, hh]
    · cases hw : s.width.or s.coded_width <;> simp [h, hw]
    · cases hw : s.width.or s.coded_width <;> simp [h, hw]
  · intro s rest hw hcw
    rw [getVideoDimensionsPure]
    simp only [List.headD_cons]
    rw [hw, hcw]
    rfl
  · intro streams h
    rw [postProcessTargetDims, h]
  · intro streams
    cases h : getVideoDimensionsPure streams with
    | ok d => exact Or.inl ⟨d, rfl, by rw [postProcessTargetDims, h]⟩
    | error u =>
        cases u
        refine Or.inr ⟨?_, ?_⟩
        · rfl
        · rw [postProcessTargetDims, h]

/-- Witness for `video_dimensions_amended`: coded-dimension fallback succeeds
with non-zero values; a stream with no dimension fields at all fails and the
caller falls back to the 1920 x 1080 defaults. -/
theorem video_dimensions_amended_witness :
    getVideoDimensionsPure
        [{ coded_width := some 1440, coded_height := some 1080 }] = .ok (1440, 1080)
    ∧ getVideoDimensionsPure [{}] = .error ()
    ∧ postProcessTargetDims [{}] = (1920, 1080) := by
  refine ⟨?_, ?_, ?_⟩
  · exact video_dimensions_amended.1
      { coded_width := some 1440, coded_height := some 1080 } [] 1440 1080
      rfl (by decide) rfl (by decide)
  · exact video_dimensions_amended.2.2.1 {} [] rfl rfl
  · exact video_dimensions_amended.2.2.2.1 [{}]
      (video_dimensions_amended.2.2.1 {} [] rfl rfl)
